import Mathlib

/-!
Verification of the `xmstool_examples` plugin tools.

This file gives a shallow embedding of the two tools that carry the
repository's logic, and proves the stated properties about them.

* `MeshFrom2dmTool` (`mesh_from_2dm_tool.py`): a line-oriented parser for the
  `.2dm` mesh text format (`_parse`, `_add_node`, `_add_cell`) and the mesh
  assembler (`_build_points`, `_build_cellstream`).
* `DatasetDiffTool` (`dataset_diff_tool.py`): argument validation
  (`validate_arguments`), output-writer metadata (`_init_writer`) and the
  per-timestep elementwise difference performed by `run`.

Modelling conventions:

* Python strings are Lean `String`s; `str.strip`, `str.split`, `str.lower`
  and `str.casefold` are re-implemented below on character lists.  The
  directive keywords of the `.2dm` format are ASCII, so `lower` and
  `casefold` coincide and are both modelled by `asciiLower`.
* A Python `dict` is an insertion-ordered association list: assigning to an
  existing key replaces the value in place, assigning to a fresh key appends.
* Python `int(tok)` is modelled by `pyInt?` below; a conversion failure
  raises `ValueError` in Python, which aborts the run, so the parser lives in
  `Except String`.
* The node coordinates produced by `float(tok)` are never used arithmetically
  by the tool (they are only stored and re-emitted), so coordinate values are
  kept as their raw source tokens and `float` is modelled as the identity on
  tokens.
* `Tool.fail(msg)` (from the host SDK `xms.tool_core`) marks the tool run as
  failed with the given message; the code calls it and then `return`s, so it
  is modelled as appending `msg` to a list of recorded failures.
* Dataset scalar values are modelled as rationals; NaN (produced by reading a
  null sentinel with `nan_null_values=True`) is modelled by `Option`, with
  `none` for NaN, and subtraction propagates `none` as NaN propagates.
-/

/-! ## Python string primitives -/

/-- Whitespace characters recognised by Python's `str.strip()`/`str.split()`. -/
def isPySpace (c : Char) : Bool :=
  c = ' ' || c = '\t' || c = '\n' || c = '\r' || c = '\x0b' || c = '\x0c'

/-- Remove the characters satisfying `p` from both ends of a character list. -/
def stripCharsList (p : Char → Bool) (l : List Char) : List Char :=
  ((l.dropWhile p).reverse.dropWhile p).reverse

/-- Python `str.strip()` with no arguments: remove surrounding whitespace. -/
def pyStrip (s : String) : String :=
  String.mk (stripCharsList isPySpace s.toList)

/-- Python `str.strip('"')`: remove surrounding double-quote characters. -/
def stripQuotes (s : String) : String :=
  String.mk (stripCharsList (fun c => c = '"') s.toList)

/-- Helper for `pySplit`: split on runs of whitespace, `acc` holds the
current word reversed. -/
def pySplitAux : List Char → List Char → List String
  | [], [] => []
  | [], acc => [String.mk acc.reverse]
  | c :: cs, acc =>
    if isPySpace c then
      match acc with
      | [] => pySplitAux cs []
      | _ :: _ => String.mk acc.reverse :: pySplitAux cs []
    else pySplitAux cs (c :: acc)

/-- Python `str.split()` with no arguments: split on runs of whitespace,
discarding empty words. -/
def pySplit (s : String) : List String :=
  pySplitAux s.toList []

/-- Python `str.lower()` / `str.casefold()` restricted to ASCII (the only
case-carrying text the tool compares is its ASCII directive keywords). -/
def asciiLower (s : String) : String :=
  String.mk (s.toList.map Char.toLower)

/-- Whether the first list begins with the second. -/
def listBeginsWith : List Char → List Char → Bool
  | _, [] => true
  | [], _ :: _ => false
  | c :: cs, d :: ds => c = d && listBeginsWith cs ds

/-- Python `str.startswith(pre)`. -/
def pyStartsWith (s pre : String) : Bool :=
  listBeginsWith s.toList pre.toList

/-- Python `" ".join(words)`. -/
def pyJoin (words : List String) : String :=
  String.intercalate " " words

/-- Accumulate decimal digits; `none` as soon as a non-digit appears. -/
def pyDigitsAux (acc : Nat) : List Char → Option Nat
  | [] => some acc
  | c :: cs => if c.isDigit then pyDigitsAux (acc * 10 + (c.toNat - '0'.toNat)) cs else none

/-- A non-empty run of decimal digits, as a number. -/
def pyDigits? : List Char → Option Nat
  | [] => none
  | l@(_ :: _) => pyDigitsAux 0 l

/-- Python `int(tok)` on a whitespace-free token: an optional sign followed
by at least one decimal digit (exotic literal forms such as digit-group
underscores are not modelled); `none` models the `ValueError` raised on
anything else. -/
def pyInt? (s : String) : Option Int :=
  match s.toList with
  | '-' :: rest => (pyDigits? rest).map (fun n => -(n : Int))
  | '+' :: rest => (pyDigits? rest).map (fun n => (n : Int))
  | l => (pyDigits? l).map (fun n => (n : Int))

/-! ## The `.2dm` parser state (`MeshFrom2dmTool.__init__`) -/

/-- A node location: the three coordinate tokens `X Y Z` of an `ND` card
(see the modelling conventions: `float` is the identity on tokens). -/
def Coord := String × String × String
deriving DecidableEq, Repr

/-- The mutable state of `MeshFrom2dmTool` touched by `_parse`:
`_nodes` (insertion-ordered ID → location dict), `_cells`, `_mesh_name`,
plus the failures recorded through `Tool.fail`. -/
structure ParseState where
  nodes : List (Int × Coord)
  cells : List (List Int)
  meshName : String
  failures : List String
deriving DecidableEq, Repr

/-- The state set up by `MeshFrom2dmTool.__init__` (empty tables). -/
def initState : ParseState :=
  { nodes := [], cells := [], meshName := "", failures := [] }

/-- Python `d[k] = v` on an insertion-ordered dict: replace in place if the
key is present, append otherwise. -/
def dictInsert (k : Int) (v : Coord) : List (Int × Coord) → List (Int × Coord)
  | [] => [(k, v)]
  | (k', v') :: rest => if k' = k then (k, v) :: rest else (k', v') :: dictInsert k v rest

/-- Python `d[k]` on an association list, as an `Option`. -/
def dictGet (m : List (Int × Coord)) (k : Int) : Option Coord :=
  match m with
  | [] => none
  | (k', v) :: rest => if k' = k then some v else dictGet rest k

/-- `MeshFrom2dmTool.MIN_NODE_LINE_CARDS`. -/
def MIN_NODE_LINE_CARDS : Nat := 5

/-- `MeshFrom2dmTool._add_node`: a node line `ND <ID> <X> <Y> <Z>`, already
split on whitespace.  Too few fields records a failure and adds nothing;
otherwise the node dict is updated at key `int(line[1])`.  An unparsable ID
token raises `ValueError`. -/
def addNode (st : ParseState) (line : List String) : Except String ParseState :=
  if line.length < MIN_NODE_LINE_CARDS then
    Except.ok { st with failures := st.failures ++ ["Unable to parse node: " ++ pyJoin line] }
  else
    match line with
    | _ :: idTok :: x :: y :: z :: _ =>
      match pyInt? idTok with
      | none => Except.error ("ValueError: invalid literal for int: " ++ idTok)
      | some nid => Except.ok { st with nodes := dictInsert nid (x, y, z) st.nodes }
    | _ => Except.error "unreachable: length checked above"

/-- The list comprehension `[int(word) for word in toks]`: all tokens
converted with `int`, or `none` for the `ValueError` raised at the first
non-integer token. -/
def intTokens? : List String → Option (List Int)
  | [] => some []
  | t :: ts =>
    match pyInt? t, intTokens? ts with
    | some v, some vs => some (v :: vs)
    | _, _ => none

/-- `MeshFrom2dmTool._add_cell`: a cell line `<E3T | E4Q> <ID> <PT1> ...`,
already split on whitespace.  `num_pts` is 4 for an `e4q` card and 3
otherwise; too few fields records a failure and adds nothing; otherwise the
point tokens `line[2 : num_pts + 2]` are converted with `int` and appended
as one cell.  An empty line raises `IndexError` at `line[0]`. -/
def addCell (st : ParseState) : List String → Except String ParseState
  | [] => Except.error "IndexError: list index out of range"
  | line@(card :: _) =>
    let num_pts : Nat := if asciiLower card = "e4q" then 4 else 3
    if line.length < num_pts + 2 then
      Except.ok { st with failures := st.failures ++ ["Unable to parse element: " ++ pyJoin line] }
    else
      match intTokens? ((line.drop 2).take num_pts) with
      | none => Except.error "ValueError: invalid literal for int"
      | some pts => Except.ok { st with cells := st.cells ++ [pts] }

/-- One iteration of the loop in `MeshFrom2dmTool._parse`: strip the line,
skip it if blank, capture the mesh name on a `MESHNAME` card, otherwise
split and dispatch on the lower-cased first word. -/
def parseLine (st : ParseState) (rawLine : String) : Except String ParseState :=
  let line := pyStrip rawLine
  if line = "" then Except.ok st
  else if pyStartsWith (asciiLower line) "meshname" then
    Except.ok { st with meshName := stripQuotes (pyStrip (String.mk (line.toList.drop 8))) }
  else
    if asciiLower ((pySplit line).headD "") = "e3t" ∨ asciiLower ((pySplit line).headD "") = "e4q" then
      addCell st (pySplit line)
    else if asciiLower ((pySplit line).headD "") = "nd" then addNode st (pySplit line)
    else Except.ok st

/-- The loop of `MeshFrom2dmTool._parse` over the lines of the file. -/
def parseLines (st : ParseState) : List String → Except String ParseState
  | [] => Except.ok st
  | l :: ls =>
    match parseLine st l with
    | Except.error e => Except.error e
    | Except.ok st' => parseLines st' ls

/-- `MeshFrom2dmTool._parse` on the list of lines of the file, starting from
the freshly-constructed state. -/
def parse (lines : List String) : Except String ParseState :=
  parseLines initState lines

/-! ## The mesh assembler (`_build_points`, `_build_cellstream`) -/

/-- The `enumerate` loop of `MeshFrom2dmTool._build_points`, building
`_node_map`: each node ID is mapped to its position in the node dict,
counting from `idx`. -/
def nodeMapAux (idx : Nat) : List (Int × Coord) → List (Int × Nat)
  | [] => []
  | (nid, _) :: rest => (nid, idx) :: nodeMapAux (idx + 1) rest

/-- The `_node_map` dict produced by `MeshFrom2dmTool._build_points`:
node ID → dense zero-based index. -/
def nodeMap (nodes : List (Int × Coord)) : List (Int × Nat) :=
  nodeMapAux 0 nodes

/-- The locations list returned by `MeshFrom2dmTool._build_points`: the node
dict's values in insertion order. -/
def buildPoints (nodes : List (Int × Coord)) : List Coord :=
  nodes.map Prod.snd

/-- Python `self._node_map[node_id]` as an `Option` (a missing key raises
`KeyError`, modelled as `none`). -/
def mapLookup (m : List (Int × Nat)) (k : Int) : Option Nat :=
  match m with
  | [] => none
  | (k', v) :: rest => if k' = k then some v else mapLookup rest k

/-- `UGrid.cell_type_enum.TRIANGLE` (host SDK `xms.grid`, VTK cell code). -/
def CELL_TYPE_TRIANGLE : Int := 5

/-- `UGrid.cell_type_enum.QUAD` (host SDK `xms.grid`, VTK cell code). -/
def CELL_TYPE_QUAD : Int := 9

/-- The list comprehension `[self._node_map[node_id] for node_id in cell]`:
all dense indices of the cell's node IDs, or `none` for the `KeyError`
raised at the first missing ID. -/
def lookupIndices (nm : List (Int × Nat)) : List Int → Option (List Nat)
  | [] => some []
  | nid :: rest =>
    match mapLookup nm nid, lookupIndices nm rest with
    | some i, some is => some (i :: is)
    | _, _ => none

/-- `MeshFrom2dmTool._build_cellstream`: each cell contributes its type tag
(quad iff it has 4 points, triangle otherwise), its point count, then the
dense indices of its node IDs in source order.  A node ID missing from
`_node_map` raises `KeyError`, modelled as `none`. -/
def buildCellstream (nm : List (Int × Nat)) : List (List Int) → Option (List Int)
  | [] => some []
  | cell :: rest =>
    let cell_type : Int := if cell.length = 4 then CELL_TYPE_QUAD else CELL_TYPE_TRIANGLE
    match lookupIndices nm cell with
    | none => none
    | some idxs =>
      match buildCellstream nm rest with
      | none => none
      | some restStream =>
        some (cell_type :: (cell.length : Int) :: (idxs.map Int.ofNat ++ restStream))

/-- `MeshFrom2dmTool._build_cogrid`'s data: the locations from
`_build_points` and the cellstream from `_build_cellstream`; `none` when the
cellstream construction raises. -/
def buildGrid (st : ParseState) : Option (List Coord × List Int) :=
  match buildCellstream (nodeMap st.nodes) st.cells with
  | none => none
  | some cs => some (buildPoints st.nodes, cs)

/-! ## Specification-side views of the parsed input -/

/-- Specification-side: the node ID an `addNode` call records from a split
line: `some id` when the line has enough fields and its second field is an
integer token, `none` otherwise. -/
def nodeLineId (ws : List String) : Option Int :=
  if ws.length < MIN_NODE_LINE_CARDS then none
  else (ws.get? 1).bind pyInt?

/-- Specification-side: the node ID recorded by one raw line, mirroring the
classification in `parseLine`/`addNode`.  `some id` exactly when the line is
a well-formed `ND` card for node `id`. -/
def lineNodeId (rawLine : String) : Option Int :=
  let line := pyStrip rawLine
  if line = "" then none
  else if pyStartsWith (asciiLower line) "meshname" then none
  else
    if asciiLower ((pySplit line).headD "") = "e3t" ∨ asciiLower ((pySplit line).headD "") = "e4q" then
      none
    else if asciiLower ((pySplit line).headD "") = "nd" then nodeLineId (pySplit line)
    else none

/-- Specification-side: the node IDs parsed from the file, in file order,
one per well-formed `ND` line (duplicates included). -/
def specParsedNodeIds (lines : List String) : List Int :=
  lines.filterMap lineNodeId

/-- Append a key if it is not already present (the effect of one dict
insertion on the key list). -/
def insKey (ks : List Int) (k : Int) : List Int :=
  if k ∈ ks then ks else ks ++ [k]

/-- The distinct elements of a list in first-seen order. -/
def firstSeen (ids : List Int) : List Int :=
  ids.foldl insKey []

/-- The index of the first occurrence of `nid` in a list of keys. -/
def idxInList : List Int → Int → Option Nat
  | [], _ => none
  | k :: ks, nid => if k = nid then some 0 else (idxInList ks nid).map (· + 1)

/-! ## The `DatasetDiffTool` model -/

/-- The slice of the host `DatasetReader` interface that
`DatasetDiffTool` consumes: dataset name, geometry identity, value count,
timestep count, optional null sentinel, reference time and time units. -/
structure DatasetReader where
  name : String
  geom_uuid : String
  num_values : Nat
  num_times : Nat
  null_value : Option ℚ
  ref_time : String
  time_units : String
deriving DecidableEq, Repr

/-- Python `errors[k] = v` on the validation-error dict. -/
def errInsert (k v : String) : List (String × String) → List (String × String)
  | [] => [(k, v)]
  | (k', v') :: rest => if k' = k then (k, v) :: rest else (k', v') :: errInsert k v rest

/-- Lookup in the validation-error dict. -/
def errGet (m : List (String × String)) (k : String) : Option String :=
  match m with
  | [] => none
  | (k', v) :: rest => if k' = k then some v else errGet rest k

/-- `DatasetDiffTool.validate_arguments`: compare the two input datasets'
geometry identity, value count and timestep count, recording an error keyed
to the first dataset argument's name for each mismatch.  The two readers are
the ones retrieved by `_validate_input_dataset`. -/
def validateArguments (arg1Name : String) (r1 r2 : DatasetReader) : List (String × String) :=
  let errors : List (String × String) := []
  let errors := if r1.geom_uuid ≠ r2.geom_uuid then
    errInsert arg1Name "Datasets must be on the same geometry." errors else errors
  let errors := if r1.num_values ≠ r2.num_values then
    errInsert arg1Name "Datasets must have the same dataset location." errors else errors
  let errors := if r1.num_times ≠ r2.num_times then
    errInsert arg1Name "Datasets must have matching number of timesteps." errors else errors
  errors

/-- The metadata handed to `get_output_dataset_writer`. -/
structure DatasetWriter where
  name : String
  geom_uuid : String
  ref_time : String
  time_units : String
  null_value : Option ℚ
deriving DecidableEq, Repr

/-- `DatasetDiffTool._init_writer`: the output dataset's metadata comes from
the first input, except the null value, which is the second reader's when the
first defines none and the first reader's otherwise. -/
def initWriter (r1 r2 : DatasetReader) : DatasetWriter :=
  { name := r1.name ++ " - " ++ r2.name
    geom_uuid := r1.geom_uuid
    ref_time := r1.ref_time
    time_units := r1.time_units
    null_value :=
      match r1.null_value with
      | none => r2.null_value
      | some _ => r1.null_value }

/-- Elementwise subtraction on array values; `none` models NaN, which numpy
propagates through subtraction. -/
def valSub : Option ℚ → Option ℚ → Option ℚ
  | some a, some b => some (a - b)
  | _, _ => none

/-- `DatasetReader.timestep_with_activity(idx, nan_null_values=True)`: array
entries equal to the dataset's null value are read back as NaN. -/
def readTimestep (nullValue : Option ℚ) (raw : List ℚ) : List (Option ℚ) :=
  raw.map (fun x => if nullValue = some x then none else some x)

/-- The body of the timestep loop in `DatasetDiffTool.run`: read both
timesteps with nulls as NaN, subtract elementwise, then reset the NaN
positions to the resolved output null value. -/
def diffTimestep (outNull : ℚ) (null1 null2 : Option ℚ) (raw1 raw2 : List ℚ) : List ℚ :=
  (List.zipWith valSub (readTimestep null1 raw1) (readTimestep null2 raw2)).map
    (fun v => match v with | none => outNull | some x => x)

/-! ## Association-list and key lemmas -/

theorem dictInsert_keys (k : Int) (v : Coord) (m : List (Int × Coord)) :
    (dictInsert k v m).map Prod.fst = insKey (m.map Prod.fst) k := by
  induction m with
  | nil => simp [dictInsert, insKey]
  | cons hd tl ih =>
    obtain ⟨k', v'⟩ := hd
    by_cases hk : k' = k
    · subst hk
      simp [dictInsert, insKey]
    · simp only [dictInsert, if_neg hk, List.map_cons, ih, insKey]
      by_cases hmem : k ∈ tl.map Prod.fst
      · simp [hmem, Ne.symm hk]
      · simp [hmem, Ne.symm hk]

theorem dictGet_dictInsert_self (k : Int) (v : Coord) (m : List (Int × Coord)) :
    dictGet (dictInsert k v m) k = some v := by
  induction m with
  | nil => simp [dictInsert, dictGet]
  | cons hd tl ih =>
    obtain ⟨k', v'⟩ := hd
    by_cases hk : k' = k
    · subst hk; simp [dictInsert, dictGet]
    · simp [dictInsert, dictGet, hk, ih]

theorem mem_insKey (a k : Int) (ks : List Int) : a ∈ insKey ks k ↔ a ∈ ks ∨ a = k := by
  unfold insKey
  by_cases h : k ∈ ks
  · simp only [if_pos h]
    constructor
    · exact fun ha => Or.inl ha
    · rintro (ha | rfl) <;> assumption
  · simp [if_neg h, or_comm]

theorem insKey_nodup (k : Int) (ks : List Int) (h : ks.Nodup) : (insKey ks k).Nodup := by
  unfold insKey
  by_cases hm : k ∈ ks
  · simpa [hm]
  · rw [if_neg hm, List.nodup_append]
    refine ⟨h, List.nodup_singleton k, ?_⟩
    intro a ha hb
    rw [List.mem_singleton] at hb
    exact hm (hb ▸ ha)

theorem insKey_length_le (k : Int) (ks : List Int) :
    ks.length ≤ (insKey ks k).length := by
  unfold insKey
  by_cases hm : k ∈ ks <;> simp [hm]

theorem mem_foldl_insKey (a : Int) (ids : List Int) :
    ∀ ks : List Int, a ∈ ids.foldl insKey ks ↔ a ∈ ks ∨ a ∈ ids := by
  induction ids with
  | nil => intro ks; simp
  | cons i tl ih =>
    intro ks
    simp only [List.foldl_cons, ih, mem_insKey, List.mem_cons]
    tauto

theorem foldl_insKey_nodup (ids : List Int) :
    ∀ ks : List Int, ks.Nodup → (ids.foldl insKey ks).Nodup := by
  induction ids with
  | nil => intro ks h; simpa
  | cons i tl ih => intro ks h; exact ih _ (insKey_nodup _ _ h)

theorem mem_firstSeen (a : Int) (ids : List Int) : a ∈ firstSeen ids ↔ a ∈ ids := by
  simp [firstSeen, mem_foldl_insKey]

theorem firstSeen_nodup (ids : List Int) : (firstSeen ids).Nodup :=
  foldl_insKey_nodup ids [] List.nodup_nil

theorem firstSeen_length_eq_dedup_length (ids : List Int) :
    (firstSeen ids).length = ids.dedup.length := by
  have hperm : List.Perm (firstSeen ids) ids.dedup := by
    rw [List.perm_ext_iff_of_nodup (firstSeen_nodup ids) (List.nodup_dedup ids)]
    intro a
    rw [mem_firstSeen, List.mem_dedup]
  exact hperm.length_eq

/-! ## Index lemmas -/

theorem idxInList_lt_length (ks : List Int) (nid : Int) :
    ∀ j, idxInList ks nid = some j → j < ks.length := by
  induction ks with
  | nil => intro j h; simp [idxInList] at h
  | cons k tl ih =>
    intro j h
    by_cases hk : k = nid
    · simp [idxInList, hk] at h
      simp only [List.length_cons]
      omega
    · simp only [idxInList, if_neg hk, Option.map_eq_some'] at h
      obtain ⟨j', hj', rfl⟩ := h
      have := ih j' hj'
      simp only [List.length_cons]
      omega

theorem idxInList_isSome_of_mem (ks : List Int) (nid : Int) (h : nid ∈ ks) :
    (idxInList ks nid).isSome := by
  induction ks with
  | nil => simp at h
  | cons k tl ih =>
    by_cases hk : k = nid
    · simp [idxInList, hk]
    · have : nid ∈ tl := by
        rcases List.mem_cons.mp h with h' | h'
        · exact absurd h'.symm hk
        · exact h'
      have := ih this
      simp only [idxInList, if_neg hk]
      cases hx : idxInList tl nid with
      | none => rw [hx] at this; simp at this
      | some j => simp

theorem idxInList_eq_none_of_not_mem (ks : List Int) (nid : Int) (h : nid ∉ ks) :
    idxInList ks nid = none := by
  induction ks with
  | nil => simp [idxInList]
  | cons k tl ih =>
    have hk : ¬(k = nid) := fun he => h (he ▸ List.mem_cons_self k tl)
    have htl : nid ∉ tl := fun hm => h (List.mem_cons_of_mem _ hm)
    simp [idxInList, hk, ih htl]

theorem mapLookup_nodeMapAux (nodes : List (Int × Coord)) (nid : Int) :
    ∀ i : Nat, mapLookup (nodeMapAux i nodes) nid =
      (idxInList (nodes.map Prod.fst) nid).map (· + i) := by
  induction nodes with
  | nil => intro i; simp [nodeMapAux, mapLookup, idxInList]
  | cons hd tl ih =>
    intro i
    obtain ⟨k, v⟩ := hd
    by_cases hk : k = nid
    · simp [nodeMapAux, mapLookup, idxInList, hk]
    · simp only [nodeMapAux, mapLookup, List.map_cons, idxInList, if_neg hk, ih (i + 1)]
      cases hx : idxInList (tl.map Prod.fst) nid with
      | none => simp
      | some j => simp; omega

theorem mapLookup_nodeMap (nodes : List (Int × Coord)) (nid : Int) :
    mapLookup (nodeMap nodes) nid = idxInList (nodes.map Prod.fst) nid := by
  rw [nodeMap, mapLookup_nodeMapAux]
  cases hx : idxInList (nodes.map Prod.fst) nid <;> simp

theorem nodeMapAux_eq_of_keys (l l' : List (Int × Coord))
    (h : l.map Prod.fst = l'.map Prod.fst) : ∀ i, nodeMapAux i l = nodeMapAux i l' := by
  induction l generalizing l' with
  | nil =>
    cases l' with
    | nil => intro i; rfl
    | cons hd tl => simp at h
  | cons hd tl ih =>
    cases l' with
    | nil => simp at h
    | cons hd' tl' =>
      intro i
      simp only [List.map_cons, List.cons.injEq] at h
      simp [nodeMapAux, h.1, ih tl' h.2 (i + 1)]

/-! ## Behaviour of one parsed line -/

theorem addNode_ok_spec (st st' : ParseState) (ws : List String)
    (h : addNode st ws = Except.ok st') :
    st'.cells = st.cells ∧ st'.meshName = st.meshName ∧
    (∃ extra, st'.failures = st.failures ++ extra) ∧
    st'.nodes.map Prod.fst =
      (match nodeLineId ws with
       | none => st.nodes.map Prod.fst
       | some k => insKey (st.nodes.map Prod.fst) k) := by
  match ws with
  | [] =>
    simp only [addNode, MIN_NODE_LINE_CARDS, List.length_nil, Nat.zero_lt_succ, if_pos,
      Except.ok.injEq] at h
    subst h
    exact ⟨rfl, rfl, ⟨_, rfl⟩, by simp [nodeLineId, MIN_NODE_LINE_CARDS]⟩
  | [a] =>
    simp only [addNode, MIN_NODE_LINE_CARDS, List.length_cons, List.length_nil,
      Except.ok.injEq, show (1 : Nat) < 5 by omega, if_pos] at h
    subst h
    exact ⟨rfl, rfl, ⟨_, rfl⟩, by simp [nodeLineId, MIN_NODE_LINE_CARDS]⟩
  | [a, b] =>
    simp only [addNode, MIN_NODE_LINE_CARDS, List.length_cons, List.length_nil,
      Except.ok.injEq, show (2 : Nat) < 5 by omega, if_pos] at h
    subst h
    exact ⟨rfl, rfl, ⟨_, rfl⟩, by simp [nodeLineId, MIN_NODE_LINE_CARDS]⟩
  | [a, b, c] =>
    simp only [addNode, MIN_NODE_LINE_CARDS, List.length_cons, List.length_nil,
      Except.ok.injEq, show (3 : Nat) < 5 by omega, if_pos] at h
    subst h
    exact ⟨rfl, rfl, ⟨_, rfl⟩, by simp [nodeLineId, MIN_NODE_LINE_CARDS]⟩
  | [a, b, c, d] =>
    simp only [addNode, MIN_NODE_LINE_CARDS, List.length_cons, List.length_nil,
      Except.ok.injEq, show (4 : Nat) < 5 by omega, if_pos] at h
    subst h
    exact ⟨rfl, rfl, ⟨_, rfl⟩, by simp [nodeLineId, MIN_NODE_LINE_CARDS]⟩
  | a :: b :: c :: d :: e :: rest =>
    have hlen : ¬((a :: b :: c :: d :: e :: rest).length < MIN_NODE_LINE_CARDS) := by
      simp [MIN_NODE_LINE_CARDS]
    rw [addNode, if_neg hlen] at h
    cases hpi : pyInt? b with
    | none => rw [hpi] at h; exact absurd h (by simp)
    | some nid =>
      rw [hpi] at h
      simp only [Except.ok.injEq] at h
      subst h
      refine ⟨rfl, rfl, ⟨[], by simp⟩, ?_⟩
      rw [nodeLineId, if_neg hlen]
      simp [hpi, dictInsert_keys]

theorem addCell_ok_spec (st st' : ParseState) (ws : List String)
    (h : addCell st ws = Except.ok st') :
    st'.nodes = st.nodes ∧ st'.meshName = st.meshName ∧
    (∃ extra, st'.failures = st.failures ++ extra) := by
  match ws with
  | [] => exact absurd h (by simp [addCell])
  | card :: rest =>
    rw [addCell] at h
    repeat' split at h
    all_goals try (exact Except.noConfusion h)
    all_goals simp only [Except.ok.injEq] at h
    all_goals subst h
    all_goals refine ⟨rfl, rfl, ?_⟩
    all_goals first
      | exact ⟨_, rfl⟩
      | exact ⟨[], by simp⟩

theorem parseLine_ok_keys (st st' : ParseState) (l : String)
    (h : parseLine st l = Except.ok st') :
    (∃ extra, st'.failures = st.failures ++ extra) ∧
    st'.nodes.map Prod.fst =
      (match lineNodeId l with
       | none => st.nodes.map Prod.fst
       | some k => insKey (st.nodes.map Prod.fst) k) := by
  rw [parseLine] at h
  rw [lineNodeId]
  split at h
  next h1 =>
    rw [if_pos h1]
    simp only [Except.ok.injEq] at h
    subst h
    exact ⟨⟨[], by simp⟩, rfl⟩
  next h1 =>
    rw [if_neg h1]
    split at h
    next h2 =>
      rw [if_pos h2]
      simp only [Except.ok.injEq] at h
      subst h
      exact ⟨⟨[], by simp⟩, rfl⟩
    next h2 =>
      rw [if_neg h2]
      split at h
      next h3 =>
        rw [if_pos h3]
        obtain ⟨hn, _, hf⟩ := addCell_ok_spec st st' _ h
        exact ⟨hf, by rw [hn]⟩
      next h3 =>
        rw [if_neg h3]
        split at h
        next h4 =>
          rw [if_pos h4]
          obtain ⟨_, _, hf, hk⟩ := addNode_ok_spec st st' _ h
          exact ⟨hf, hk⟩
        next h4 =>
          rw [if_neg h4]
          simp only [Except.ok.injEq] at h
          subst h
          exact ⟨⟨[], by simp⟩, rfl⟩

/-! ## Whole-file parse invariants -/

theorem parseLines_ok_keys : ∀ (ls : List String) (st st' : ParseState),
    parseLines st ls = Except.ok st' →
    st'.nodes.map Prod.fst = (specParsedNodeIds ls).foldl insKey (st.nodes.map Prod.fst) := by
  intro ls
  induction ls with
  | nil =>
    intro st st' h
    simp only [parseLines, Except.ok.injEq] at h
    subst h
    simp [specParsedNodeIds]
  | cons l tl ih =>
    intro st st' h
    rw [parseLines] at h
    cases hpl : parseLine st l with
    | error e => rw [hpl] at h; exact Except.noConfusion h
    | ok st1 =>
      rw [hpl] at h
      have hkey := (parseLine_ok_keys st st1 l hpl).2
      have htl := ih st1 st' h
      rw [htl, hkey]
      cases hid : lineNodeId l with
      | none => simp [specParsedNodeIds, List.filterMap_cons, hid]
      | some k => simp [specParsedNodeIds, List.filterMap_cons, hid]

theorem parseLines_failures_mono : ∀ (ls : List String) (st st' : ParseState),
    parseLines st ls = Except.ok st' →
    ∃ extra, st'.failures = st.failures ++ extra := by
  intro ls
  induction ls with
  | nil =>
    intro st st' h
    simp only [parseLines, Except.ok.injEq] at h
    subst h
    exact ⟨[], by simp⟩
  | cons l tl ih =>
    intro st st' h
    rw [parseLines] at h
    cases hpl : parseLine st l with
    | error e => rw [hpl] at h; exact Except.noConfusion h
    | ok st1 =>
      rw [hpl] at h
      obtain ⟨e1, he1⟩ := (parseLine_ok_keys st st1 l hpl).1
      obtain ⟨e2, he2⟩ := ih st1 st' h
      exact ⟨e1 ++ e2, by rw [he2, he1, List.append_assoc]⟩

theorem parse_keys (lines : List String) (st : ParseState)
    (h : parse lines = Except.ok st) :
    st.nodes.map Prod.fst = firstSeen (specParsedNodeIds lines) := by
  have := parseLines_ok_keys lines initState st h
  simpa [initState, firstSeen] using this

theorem parse_keys_nodup (lines : List String) (st : ParseState)
    (h : parse lines = Except.ok st) : (st.nodes.map Prod.fst).Nodup := by
  rw [parse_keys lines st h]
  exact firstSeen_nodup _

/-! ## Cellstream lemmas -/

theorem lookupIndices_isSome (nm : List (Int × Nat)) :
    ∀ l : List Int, (∀ x ∈ l, (mapLookup nm x).isSome) →
      ∃ ys, lookupIndices nm l = some ys := by
  intro l
  induction l with
  | nil => intro _; exact ⟨[], rfl⟩
  | cons a tl ih =>
    intro h
    have ha := h a (List.mem_cons_self a tl)
    obtain ⟨b, hb⟩ := Option.isSome_iff_exists.mp ha
    obtain ⟨ys, hys⟩ := ih (fun x hx => h x (List.mem_cons_of_mem _ hx))
    exact ⟨b :: ys, by rw [lookupIndices, hb, hys]⟩

theorem lookupIndices_eq_none (nm : List (Int × Nat)) :
    ∀ (l : List Int) (x : Int), x ∈ l → mapLookup nm x = none →
      lookupIndices nm l = none := by
  intro l
  induction l with
  | nil => intro x hx; simp at hx
  | cons a tl ih =>
    intro x hx hfx
    rcases List.mem_cons.mp hx with rfl | hx'
    · rw [lookupIndices, hfx]
    · rw [lookupIndices, ih x hx' hfx]
      cases mapLookup nm a <;> rfl

theorem buildCellstream_isSome (nm : List (Int × Nat)) :
    ∀ cells : List (List Int),
      (∀ cell ∈ cells, ∃ idxs, lookupIndices nm cell = some idxs) →
      (buildCellstream nm cells).isSome := by
  intro cells
  induction cells with
  | nil => intro _; simp [buildCellstream]
  | cons c tl ih =>
    intro h
    obtain ⟨idxs, hidxs⟩ := h c (List.mem_cons_self c tl)
    have htl := ih (fun cell hc => h cell (List.mem_cons_of_mem _ hc))
    obtain ⟨s, hs⟩ := Option.isSome_iff_exists.mp htl
    rw [buildCellstream, hidxs, hs]
    simp

theorem buildCellstream_eq_none (nm : List (Int × Nat)) :
    ∀ (cells : List (List Int)) (cell : List Int), cell ∈ cells →
      lookupIndices nm cell = none → buildCellstream nm cells = none := by
  intro cells
  induction cells with
  | nil => intro cell hc; simp at hc
  | cons c tl ih =>
    intro cell hc hnone
    rcases List.mem_cons.mp hc with rfl | hc'
    · rw [buildCellstream, hnone]
    · rw [buildCellstream]
      cases hm : lookupIndices nm c with
      | none => rfl
      | some idxs => rw [ih cell hc' hnone]

theorem buildPoints_length (nodes : List (Int × Coord)) :
    (buildPoints nodes).length = (nodes.map Prod.fst).length := by
  simp [buildPoints]

deriving instance DecidableEq for Except

/-- A concrete well-formed two-triangle `.2dm` file. -/
def c1demoLines : List String :=
  ["MESHNAME \"demo\"", "ND 1 0.0 0.0 0.0", "ND 2 1.0 0.0 0.0", "ND 3 1.0 1.0 0.0",
   "ND 4 0.0 1.0 0.0", "E3T 1 1 2 3", "E3T 2 1 3 4"]

/-- The state `parse` reaches on `c1demoLines`. -/
def c1demoState : ParseState :=
  { nodes := [(1, ("0.0", "0.0", "0.0")), (2, ("1.0", "0.0", "0.0")),
              (3, ("1.0", "1.0", "0.0")), (4, ("0.0", "1.0", "0.0"))]
    cells := [[1, 2, 3], [1, 3, 4]]
    meshName := "demo"
    failures := [] }

/-- A file with gapped node IDs 1, 3, 7 and a triangle referencing them. -/
def c2demoLines : List String :=
  ["ND 1 0 0 0", "ND 3 1 0 0", "ND 7 1 1 0", "E3T 9 1 3 7"]

/-- The state `parse` reaches on `c2demoLines`. -/
def c2demoState : ParseState :=
  { nodes := [(1, ("0", "0", "0")), (3, ("1", "0", "0")), (7, ("1", "1", "0"))]
    cells := [[1, 3, 7]]
    meshName := ""
    failures := [] }

/-- A file whose only cell references node ID 9, which no `ND` line defines. -/
def c5demoLines : List String :=
  ["ND 1 0 0 0", "ND 3 1 0 0", "E3T 4 1 3 9"]

/-- The state `parse` reaches on `c5demoLines`. -/
def c5demoState : ParseState :=
  { nodes := [(1, ("0", "0", "0")), (3, ("1", "0", "0"))]
    cells := [[1, 3, 9]]
    meshName := ""
    failures := [] }

/-- A node table holding IDs 1, 3, 7, before a duplicated `ND 3` line. -/
def c10demoState : ParseState :=
  { nodes := [(1, ("0", "0", "0")), (3, ("1", "0", "0")), (7, ("1", "1", "0"))]
    cells := []
    meshName := ""
    failures := [] }

/-! ## The claims -/

/-- C1: for every well-formed `.2dm` input (no parse failures recorded, and
every node ID referenced by a cell appears in a node line), the number of
coordinates emitted by `_build_points` equals the number of distinct node
IDs parsed, and `_build_cellstream` succeeds with every emitted point index
a valid index into the coordinate list. -/
theorem c1_wellformed_counts_and_indices (lines : List String) (st : ParseState)
    (hparse : parse lines = Except.ok st)
    (hnofail : st.failures = [])
    (href : ∀ cell ∈ st.cells, ∀ nid ∈ cell, nid ∈ specParsedNodeIds lines) :
    (buildPoints st.nodes).length = (specParsedNodeIds lines).dedup.length ∧
    (buildCellstream (nodeMap st.nodes) st.cells).isSome ∧
    (∀ cell ∈ st.cells, ∀ nid ∈ cell, ∀ i, mapLookup (nodeMap st.nodes) nid = some i →
      i < (buildPoints st.nodes).length) := by
  have hkeys := parse_keys lines st hparse
  refine ⟨?_, ?_, ?_⟩
  · rw [buildPoints_length, hkeys, firstSeen_length_eq_dedup_length]
  · apply buildCellstream_isSome
    intro cell hc
    apply lookupIndices_isSome
    intro nid hn
    rw [mapLookup_nodeMap, hkeys]
    exact idxInList_isSome_of_mem _ _ ((mem_firstSeen _ _).mpr (href cell hc nid hn))
  · intro cell hc nid hn i hi
    rw [mapLookup_nodeMap] at hi
    rw [buildPoints_length]
    exact idxInList_lt_length _ _ i hi

/-- C1 witness: a concrete well-formed two-triangle file. -/
theorem c1_witness :
    (buildPoints c1demoState.nodes).length = (specParsedNodeIds c1demoLines).dedup.length ∧
    (buildCellstream (nodeMap c1demoState.nodes) c1demoState.cells).isSome ∧
    (∀ cell ∈ c1demoState.cells, ∀ nid ∈ cell, ∀ i,
      mapLookup (nodeMap c1demoState.nodes) nid = some i →
      i < (buildPoints c1demoState.nodes).length) :=
  c1_wellformed_counts_and_indices c1demoLines c1demoState (by decide) (by decide) (by decide)

/-- C2: the node-ID-to-dense-index remapping preserves ID gaps: the parsed
node table's keys are the distinct parsed node IDs in first-seen order, the
coordinate count is the number of those distinct IDs, and `_node_map` sends
each parsed node ID to its first-seen rank. -/
theorem c2_gap_preserving_remap (lines : List String) (st : ParseState)
    (hparse : parse lines = Except.ok st) :
    st.nodes.map Prod.fst = firstSeen (specParsedNodeIds lines) ∧
    (buildPoints st.nodes).length = (firstSeen (specParsedNodeIds lines)).length ∧
    (∀ nid ∈ specParsedNodeIds lines,
      mapLookup (nodeMap st.nodes) nid = idxInList (firstSeen (specParsedNodeIds lines)) nid ∧
      (idxInList (firstSeen (specParsedNodeIds lines)) nid).isSome) := by
  have hkeys := parse_keys lines st hparse
  refine ⟨hkeys, by rw [buildPoints_length, hkeys], ?_⟩
  intro nid hmem
  constructor
  · rw [mapLookup_nodeMap, hkeys]
  · exact idxInList_isSome_of_mem _ _ ((mem_firstSeen _ _).mpr hmem)

/-- C2 witness: node IDs {1, 3, 7} produce 3 coordinates and a cell
referencing node ID 7 is emitted with dense index 2. -/
theorem c2_witness :
    c2demoState.nodes.map Prod.fst = firstSeen (specParsedNodeIds c2demoLines) ∧
    (buildPoints c2demoState.nodes).length = 3 ∧
    mapLookup (nodeMap c2demoState.nodes) 7 = some 2 := by
  have h := c2_gap_preserving_remap c2demoLines c2demoState (by decide)
  refine ⟨h.1, ?_, ?_⟩
  · rw [h.2.1]; decide
  · rw [(h.2.2 7 (by decide)).1]; decide

/-- C5: when any cell references a node ID absent from the node table, the
cellstream construction fails (`KeyError`) and no grid is produced. -/
theorem c5_missing_node_fails (lines : List String) (st : ParseState)
    (cell : List Int) (nid : Int)
    (hparse : parse lines = Except.ok st)
    (hc : cell ∈ st.cells) (hn : nid ∈ cell)
    (habsent : nid ∉ st.nodes.map Prod.fst) :
    buildCellstream (nodeMap st.nodes) st.cells = none ∧ buildGrid st = none := by
  have h1 : mapLookup (nodeMap st.nodes) nid = none := by
    rw [mapLookup_nodeMap]
    exact idxInList_eq_none_of_not_mem _ _ habsent
  have h2 : lookupIndices (nodeMap st.nodes) cell = none :=
    lookupIndices_eq_none _ _ _ hn h1
  have h3 := buildCellstream_eq_none _ _ _ hc h2
  exact ⟨h3, by rw [buildGrid, h3]⟩

/-- C5 witness: a file whose only cell references the unparsed node ID 9. -/
theorem c5_witness :
    buildCellstream (nodeMap c5demoState.nodes) c5demoState.cells = none ∧
    buildGrid c5demoState = none :=
  c5_missing_node_fails c5demoLines c5demoState [1, 3, 9] 9
    (by decide) (by decide) (by decide) (by decide)

/-- C10: a later well-formed `ND` line that repeats an already-seen node ID
replaces the stored coordinate in place: the key list, the dense index map
and the coordinate count are unchanged, and the stored coordinate for that
ID is the one from the repeated line. -/
theorem c10_duplicate_node_id (st : ParseState)
    (cardTok idTok x y z : String) (extra : List String) (nid : Int)
    (hpi : pyInt? idTok = some nid)
    (hmem : nid ∈ st.nodes.map Prod.fst) :
    addNode st (cardTok :: idTok :: x :: y :: z :: extra) =
      Except.ok { st with nodes := dictInsert nid (x, y, z) st.nodes } ∧
    (dictInsert nid (x, y, z) st.nodes).map Prod.fst = st.nodes.map Prod.fst ∧
    nodeMap (dictInsert nid (x, y, z) st.nodes) = nodeMap st.nodes ∧
    (buildPoints (dictInsert nid (x, y, z) st.nodes)).length =
      (buildPoints st.nodes).length ∧
    dictGet (dictInsert nid (x, y, z) st.nodes) nid = some (x, y, z) := by
  have hlen : ¬((cardTok :: idTok :: x :: y :: z :: extra).length < MIN_NODE_LINE_CARDS) := by
    simp [MIN_NODE_LINE_CARDS]
  have hkeyeq : (dictInsert nid (x, y, z) st.nodes).map Prod.fst = st.nodes.map Prod.fst := by
    rw [dictInsert_keys, insKey, if_pos hmem]
  refine ⟨?_, hkeyeq, ?_, ?_, dictGet_dictInsert_self _ _ _⟩
  · rw [addNode, if_neg hlen, hpi]
  · exact nodeMapAux_eq_of_keys _ _ hkeyeq 0
  · rw [buildPoints_length, buildPoints_length, hkeyeq]

/-- C10 witness: repeating node ID 3 with a new coordinate. -/
theorem c10_witness :
    addNode c10demoState ["ND", "3", "9", "9", "9"] =
      Except.ok { c10demoState with nodes := dictInsert 3 ("9", "9", "9") c10demoState.nodes } ∧
    (dictInsert 3 ("9", "9", "9") c10demoState.nodes).map Prod.fst =
      c10demoState.nodes.map Prod.fst ∧
    nodeMap (dictInsert 3 ("9", "9", "9") c10demoState.nodes) = nodeMap c10demoState.nodes ∧
    (buildPoints (dictInsert 3 ("9", "9", "9") c10demoState.nodes)).length =
      (buildPoints c10demoState.nodes).length ∧
    dictGet (dictInsert 3 ("9", "9", "9") c10demoState.nodes) 3 = some ("9", "9", "9") :=
  c10_duplicate_node_id c10demoState "ND" "3" "9" "9" "9" [] 3 (by decide) (by decide)

/-- C3: a well-formed `E3T` line contributes a cell that the cellstream
emits as (triangle tag, point count 3, dense indices of its three points in
source order); a well-formed `E4Q` line contributes (quad tag, point count
4, four dense indices); the tag depends only on the point count. -/
theorem c3_cell_record_layout (st : ParseState) (nm : List (Int × Nat))
    (idTok a b c d : String) (A B C D : Int) (ia ib ic id2 : Nat)
    (rest : List (List Int)) (s : List Int)
    (ha : pyInt? a = some A) (hb : pyInt? b = some B)
    (hc : pyInt? c = some C) (hd : pyInt? d = some D)
    (hia : mapLookup nm A = some ia) (hib : mapLookup nm B = some ib)
    (hic : mapLookup nm C = some ic) (hid : mapLookup nm D = some id2)
    (hrest : buildCellstream nm rest = some s) :
    addCell st ["E3T", idTok, a, b, c] =
      Except.ok { st with cells := st.cells ++ [[A, B, C]] } ∧
    buildCellstream nm ([A, B, C] :: rest) =
      some (CELL_TYPE_TRIANGLE :: 3 :: ((ia : Int) :: (ib : Int) :: (ic : Int) :: s)) ∧
    addCell st ["E4Q", idTok, a, b, c, d] =
      Except.ok { st with cells := st.cells ++ [[A, B, C, D]] } ∧
    buildCellstream nm ([A, B, C, D] :: rest) =
      some (CELL_TYPE_QUAD :: 4 :: ((ia : Int) :: (ib : Int) :: (ic : Int) :: (id2 : Int) :: s)) := by
  refine ⟨?_, ?_, ?_, ?_⟩
  · simp [addCell, intTokens?, ha, hb, hc, show asciiLower "E3T" = "e3t" from by decide]
  · simp [buildCellstream, lookupIndices, hia, hib, hic, hrest]
  · simp [addCell, intTokens?, ha, hb, hc, hd, show asciiLower "E4Q" = "e4q" from by decide]
  · simp [buildCellstream, lookupIndices, hia, hib, hic, hid, hrest]

/-- C3 witness: concrete triangle and quad lines over a three-node map. -/
theorem c3_witness :
    addCell initState ["E3T", "1", "1", "2", "3"] =
      Except.ok { initState with cells := initState.cells ++ [[1, 2, 3]] } ∧
    buildCellstream [(1, 0), (2, 1), (3, 2)] ([1, 2, 3] :: []) =
      some (CELL_TYPE_TRIANGLE :: 3 :: ((0 : Int) :: (1 : Int) :: (2 : Int) :: [])) ∧
    addCell initState ["E4Q", "1", "1", "2", "3", "3"] =
      Except.ok { initState with cells := initState.cells ++ [[1, 2, 3, 3]] } ∧
    buildCellstream [(1, 0), (2, 1), (3, 2)] ([1, 2, 3, 3] :: []) =
      some (CELL_TYPE_QUAD :: 4 :: ((0 : Int) :: (1 : Int) :: (2 : Int) :: (2 : Int) :: [])) :=
  c3_cell_record_layout initState [(1, 0), (2, 1), (3, 2)] "1" "1" "2" "3" "3" 1 2 3 3 0 1 2 2 [] []
    (by decide) (by decide) (by decide) (by decide)
    (by decide) (by decide) (by decide) (by decide) (by decide)

/-- C4: a node or cell line with too few fields makes the tool record a
fatal failure whose message quotes the joined line, leaves the node table
and cell list untouched, and the recorded failures survive to the end of
the parse (they are never dropped). -/
theorem c4_malformed_line_failure (st : ParseState) (line : List String)
    (card : String) (ws : List String) :
    (line.length < MIN_NODE_LINE_CARDS →
      addNode st line =
        Except.ok { st with failures := st.failures ++ ["Unable to parse node: " ++ pyJoin line] }) ∧
    ((card :: ws).length < (if asciiLower card = "e4q" then 4 else 3) + 2 →
      addCell st (card :: ws) =
        Except.ok { st with failures := st.failures ++ ["Unable to parse element: " ++ pyJoin (card :: ws)] }) ∧
    (∀ (ls : List String) (st' : ParseState), parseLines st ls = Except.ok st' →
      ∃ extra, st'.failures = st.failures ++ extra) := by
  refine ⟨?_, ?_, ?_⟩
  · intro h
    rw [addNode.eq_def, if_pos h]
  · intro h
    simp only [addCell]
    rw [if_pos h]
  · intro ls st' h
    exact parseLines_failures_mono ls st st' h

/-- C4 witness: `ND 1 2 3` (missing Z) and a short `E3T` line both fail
with a message quoting the line, and the failure survives a parse. -/
theorem c4_witness :
    addNode initState ["ND", "1", "2", "3"] =
      Except.ok { initState with
        failures := initState.failures ++ ["Unable to parse node: " ++ pyJoin ["ND", "1", "2", "3"]] } ∧
    addCell initState ["E3T", "1", "1"] =
      Except.ok { initState with
        failures := initState.failures ++ ["Unable to parse element: " ++ pyJoin ["E3T", "1", "1"]] } ∧
    (∃ extra,
      (({ nodes := [], cells := [], meshName := "",
          failures := ["Unable to parse node: ND 1 2 3"] } : ParseState)).failures =
        initState.failures ++ extra) :=
  have h := c4_malformed_line_failure initState ["ND", "1", "2", "3"] "E3T" ["1", "1"]
  ⟨h.1 (by decide), h.2.1 (by decide), h.2.2 ["ND 1 2 3"] _ (by decide)⟩

/-- A dataset reader with sentinel -999 on geometry "uuid-a". -/
def c7reader1 : DatasetReader :=
  { name := "ds one", geom_uuid := "uuid-a", num_values := 4, num_times := 2,
    null_value := some (-999), ref_time := "2020-01-01", time_units := "Hours" }

/-- A dataset reader on a different geometry with sentinel -888. -/
def c7reader2 : DatasetReader :=
  { name := "ds two", geom_uuid := "uuid-b", num_values := 4, num_times := 2,
    null_value := some (-888), ref_time := "2020-01-01", time_units := "Hours" }

/-- A dataset reader with no null sentinel. -/
def c8readerNoNull : DatasetReader :=
  { name := "ds three", geom_uuid := "uuid-a", num_values := 4, num_times := 2,
    null_value := none, ref_time := "2020-01-01", time_units := "Hours" }

/-! ## Dataset-diff lemmas and claims -/

theorem diffTimestep_length (outNull : ℚ) (null1 null2 : Option ℚ) (raw1 raw2 : List ℚ) :
    (diffTimestep outNull null1 null2 raw1 raw2).length = min raw1.length raw2.length := by
  simp [diffTimestep, readTimestep]

theorem diffTimestep_getD (s : ℚ) :
    ∀ (d1 d2 : List ℚ) (i : Nat), i < d1.length → i < d2.length →
      (diffTimestep s (some s) (some s) d1 d2).getD i 0 =
        (if d1.getD i 0 = s ∨ d2.getD i 0 = s then s else d1.getD i 0 - d2.getD i 0) := by
  intro d1
  induction d1 with
  | nil => intro d2 i h1 _; simp at h1
  | cons x xs ih =>
    intro d2 i h1 h2
    cases d2 with
    | nil => simp at h2
    | cons y ys =>
      cases i with
      | zero =>
        by_cases hx : x = s <;> by_cases hy : y = s <;>
          simp [diffTimestep, readTimestep, valSub, hx, hy]
        rw [if_neg (fun h => hx h.symm), if_neg (fun h => hy h.symm)]
      | succ n =>
        have hstep : (diffTimestep s (some s) (some s) (x :: xs) (y :: ys)).getD (n + 1) 0 =
            (diffTimestep s (some s) (some s) xs ys).getD n 0 := by
          simp [diffTimestep, readTimestep]
        rw [hstep, ih ys n (by simpa using h1) (by simpa using h2)]
        simp

/-- C6: per-timestep dataset diff with a shared null sentinel: each position
where either input holds the sentinel (read back as NaN) produces the
sentinel in the output, and every other position produces the elementwise
difference; the output has the common input length. -/
theorem c6_diff_sentinel_positions (s : ℚ) (d1 d2 : List ℚ) (i : Nat)
    (hlen : d1.length = d2.length) (hi : i < d1.length) :
    (diffTimestep s (some s) (some s) d1 d2).length = d1.length ∧
    ((d1.getD i 0 = s ∨ d2.getD i 0 = s) →
      (diffTimestep s (some s) (some s) d1 d2).getD i 0 = s) ∧
    (d1.getD i 0 ≠ s → d2.getD i 0 ≠ s →
      (diffTimestep s (some s) (some s) d1 d2).getD i 0 = d1.getD i 0 - d2.getD i 0) := by
  have hi2 : i < d2.length := hlen ▸ hi
  have hg := diffTimestep_getD s d1 d2 i hi hi2
  refine ⟨by rw [diffTimestep_length, hlen, Nat.min_self], ?_, ?_⟩
  · intro hnull
    rw [hg, if_pos hnull]
  · intro hn1 hn2
    rw [hg, if_neg (by tauto)]

/-- C6 witness: inputs `[1, -999, 3]` and `[1/2, 1, 1]` with sentinel
`-999`: the output is `-999` at position 1, `1/2` at position 0 and `2` at
position 2. -/
theorem c6_witness :
    (diffTimestep (-999) (some (-999)) (some (-999)) [1, -999, 3] [1/2, 1, 1]).getD 1 0 = -999 ∧
    (diffTimestep (-999) (some (-999)) (some (-999)) [1, -999, 3] [1/2, 1, 1]).getD 0 0 = 1 - 1/2 ∧
    (diffTimestep (-999) (some (-999)) (some (-999)) [1, -999, 3] [1/2, 1, 1]).getD 2 0 = 3 - 1 := by
  have h1 := c6_diff_sentinel_positions (-999) [1, -999, 3] [1/2, 1, 1] 1 (by decide) (by decide)
  have h0 := c6_diff_sentinel_positions (-999) [1, -999, 3] [1/2, 1, 1] 0 (by decide) (by decide)
  have h2 := c6_diff_sentinel_positions (-999) [1, -999, 3] [1/2, 1, 1] 2 (by decide) (by decide)
  refine ⟨?_, ?_, ?_⟩
  · exact (h1.2.1 (by norm_num))
  · have := h0.2.2 (by norm_num) (by norm_num)
    simpa using this
  · have := h2.2.2 (by norm_num) (by norm_num)
    simpa using this

/-- C7: each of the three dataset mismatches (geometry, value count,
timestep count) independently records a validation error keyed to the first
dataset argument's name in the one error mapping, every recorded error is
keyed to that name, and the mapping is empty exactly when no mismatch
exists. -/
theorem c7_validation_mismatches (n : String) (r1 r2 : DatasetReader) :
    (validateArguments n r1 r2 = [] ↔
      (r1.geom_uuid = r2.geom_uuid ∧ r1.num_values = r2.num_values ∧
        r1.num_times = r2.num_times)) ∧
    (r1.geom_uuid ≠ r2.geom_uuid →
      ∃ msg, errGet (validateArguments n r1 r2) n = some msg) ∧
    (r1.num_values ≠ r2.num_values →
      ∃ msg, errGet (validateArguments n r1 r2) n = some msg) ∧
    (r1.num_times ≠ r2.num_times →
      ∃ msg, errGet (validateArguments n r1 r2) n = some msg) ∧
    (∀ k msg, (k, msg) ∈ validateArguments n r1 r2 → k = n) := by
  simp only [validateArguments]
  split_ifs with h1 h2 h3 h2 h3 h3 h3 <;> simp_all [errInsert, errGet]

/-- C7 witness: readers differing only in geometry produce exactly the
geometry error; matching readers produce an empty mapping. -/
theorem c7_witness :
    (validateArguments "input_dataset1" c7reader1 c7reader2 = [] ↔
      (c7reader1.geom_uuid = c7reader2.geom_uuid ∧
        c7reader1.num_values = c7reader2.num_values ∧
        c7reader1.num_times = c7reader2.num_times)) ∧
    (∃ msg, errGet (validateArguments "input_dataset1" c7reader1 c7reader2) "input_dataset1" =
      some msg) :=
  have h := c7_validation_mismatches "input_dataset1" c7reader1 c7reader2
  ⟨h.1, h.2.1 (by decide)⟩

/-- C8: the output dataset's null sentinel is the first reader's whenever
the first reader defines one, and the second reader's otherwise. -/
theorem c8_null_sentinel_choice (r1 r2 : DatasetReader) :
    (∀ v, r1.null_value = some v → (initWriter r1 r2).null_value = some v) ∧
    (r1.null_value = none → (initWriter r1 r2).null_value = r2.null_value) := by
  constructor
  · intro v hv
    simp [initWriter, hv]
  · intro hv
    simp [initWriter, hv]

/-- C8 witness: with the first reader's sentinel -999 defined, the output
keeps -999; with it undefined, the output takes the second reader's. -/
theorem c8_witness :
    (initWriter c7reader1 c7reader2).null_value = some (-999) ∧
    (initWriter c8readerNoNull c7reader2).null_value = c7reader2.null_value :=
  ⟨(c8_null_sentinel_choice c7reader1 c7reader2).1 (-999) (by decide),
   (c8_null_sentinel_choice c8readerNoNull c7reader2).2 (by decide)⟩

/-! ## Parse invariance under blank lines and keyword case (C9) -/

/-- The parse data the spec cares about: node table, cell list and mesh
name (the recorded failure messages quote the line as written, so they are
not part of this view). -/
def stateEquiv (s s' : ParseState) : Prop :=
  s.nodes = s'.nodes ∧ s.cells = s'.cells ∧ s.meshName = s'.meshName

/-- Lift `stateEquiv` to parser results: equal outcomes, with states
compared by `stateEquiv` and errors by equality. -/
def resultEquiv : Except String ParseState → Except String ParseState → Prop
  | Except.ok s, Except.ok s' => stateEquiv s s'
  | Except.error e, Except.error e' => e = e'
  | _, _ => False

theorem stateEquiv_refl (s : ParseState) : stateEquiv s s := ⟨rfl, rfl, rfl⟩

theorem parseLine_blank (st : ParseState) (b : String) (h : pyStrip b = "") :
    parseLine st b = Except.ok st := by
  rw [parseLine]
  rw [if_pos h]

theorem parseLines_append : ∀ (xs ys : List String) (st : ParseState),
    parseLines st (xs ++ ys) =
      (match parseLines st xs with
       | Except.error e => Except.error e
       | Except.ok s => parseLines s ys) := by
  intro xs
  induction xs with
  | nil => intro ys st; simp [parseLines]
  | cons x tl ih =>
    intro ys st
    rw [List.cons_append, parseLines, parseLines]
    cases parseLine st x with
    | error e => rfl
    | ok s => exact ih ys s

theorem toLower_eq_self_of_isPySpace (c : Char) (h : isPySpace c = true) :
    Char.toLower c = c := by
  simp only [isPySpace, Bool.or_eq_true, decide_eq_true_eq] at h
  rcases h with ((((rfl | rfl) | rfl) | rfl) | rfl) | rfl <;> decide

theorem not_space_of_lower_keyword (wc kwc : List Char)
    (hlow : wc.map Char.toLower = kwc)
    (hkw : ∀ c ∈ kwc, isPySpace c = false) :
    ∀ c ∈ wc, isPySpace c = false := by
  intro c hc
  by_cases hsp : isPySpace c = true
  · have hmem : Char.toLower c ∈ kwc := hlow ▸ List.mem_map_of_mem Char.toLower hc
    rw [toLower_eq_self_of_isPySpace c hsp] at hmem
    have := hkw c hmem
    rw [hsp] at this
    simp at this
  · simpa using hsp

theorem dropWhile_append_chars (p : Char → Bool) : ∀ l₁ l₂ : List Char,
    (l₁ ++ l₂).dropWhile p =
      (if (l₁.dropWhile p).isEmpty then l₂.dropWhile p else l₁.dropWhile p ++ l₂) := by
  intro l₁
  induction l₁ with
  | nil => intro l₂; simp
  | cons c cs ih =>
    intro l₂
    by_cases hp : p c = true
    · simp [List.dropWhile_cons, hp, ih l₂]
    · have hp' : p c = false := by simpa using hp
      simp [List.dropWhile_cons, hp']

theorem stripCharsList_keyword_append (wc rc : List Char)
    (hne : wc ≠ []) (hns : ∀ c ∈ wc, isPySpace c = false) :
    stripCharsList isPySpace (wc ++ rc) =
      wc ++ (rc.reverse.dropWhile isPySpace).reverse := by
  have hfront : (wc ++ rc).dropWhile isPySpace = wc ++ rc := by
    cases wc with
    | nil => exact absurd rfl hne
    | cons c cs =>
      have hc := hns c (List.mem_cons_self c cs)
      simp [List.dropWhile_cons, hc]
  rw [stripCharsList, hfront, List.reverse_append,
    dropWhile_append_chars isPySpace rc.reverse wc.reverse]
  have hwrev : wc.reverse.dropWhile isPySpace = wc.reverse := by
    cases hwr : wc.reverse with
    | nil => simp
    | cons c cs =>
      have hcw : c ∈ wc := by
        have : c ∈ wc.reverse := hwr ▸ List.mem_cons_self c cs
        exact List.mem_reverse.mp this
      have hc := hns c hcw
      simp [List.dropWhile_cons, hc]
  by_cases he : (rc.reverse.dropWhile isPySpace).isEmpty
  · rw [if_pos he, hwrev, List.reverse_reverse, List.isEmpty_iff.mp he]
    simp
  · rw [if_neg he, List.reverse_append, List.reverse_reverse]

theorem pySplitAux_absorb (t : List Char) : ∀ (xc acc : List Char),
    (∀ c ∈ xc, isPySpace c = false) →
    pySplitAux (xc ++ t) acc = pySplitAux t (xc.reverse ++ acc) := by
  intro xc
  induction xc with
  | nil => intro acc _; simp
  | cons c cs ih =>
    intro acc hns
    have hc := hns c (List.mem_cons_self c cs)
    rw [List.cons_append, pySplitAux.eq_def]
    simp only [hc]
    rw [ih (c :: acc) (fun x hx => hns x (List.mem_cons_of_mem _ hx))]
    simp

theorem pySplitAux_caseEquiv : ∀ (t acc acc' : List Char),
    acc ≠ [] → acc' ≠ [] → acc.map Char.toLower = acc'.map Char.toLower →
    ∃ w w' ws, pySplitAux t acc = w :: ws ∧ pySplitAux t acc' = w' :: ws ∧
      asciiLower w = asciiLower w' := by
  intro t
  induction t with
  | nil =>
    intro acc acc' h1 h2 hl
    refine ⟨String.mk acc.reverse, String.mk acc'.reverse, [], ?_, ?_, ?_⟩
    · cases acc with
      | nil => exact absurd rfl h1
      | cons a as => rfl
    · cases acc' with
      | nil => exact absurd rfl h2
      | cons a as => rfl
    · show String.mk (acc.reverse.map Char.toLower) = String.mk (acc'.reverse.map Char.toLower)
      rw [List.map_reverse, List.map_reverse, hl]
  | cons c cs ih =>
    intro acc acc' h1 h2 hl
    by_cases hc : isPySpace c = true
    · refine ⟨String.mk acc.reverse, String.mk acc'.reverse, pySplitAux cs [], ?_, ?_, ?_⟩
      · rw [pySplitAux.eq_def]
        simp only [hc]
        cases acc with
        | nil => exact absurd rfl h1
        | cons a as => simp
      · rw [pySplitAux.eq_def]
        simp only [hc]
        cases acc' with
        | nil => exact absurd rfl h2
        | cons a as => simp
      · show String.mk (acc.reverse.map Char.toLower) = String.mk (acc'.reverse.map Char.toLower)
        rw [List.map_reverse, List.map_reverse, hl]
    · have hc' : isPySpace c = false := by simpa using hc
      have h3 : (c :: acc).map Char.toLower = (c :: acc').map Char.toLower := by
        simp [hl]
      have := ih (c :: acc) (c :: acc') (List.cons_ne_nil c acc) (List.cons_ne_nil c acc') h3
      obtain ⟨w, w', ws, hw, hw', hlw⟩ := this
      refine ⟨w, w', ws, ?_, ?_, hlw⟩
      · rw [pySplitAux.eq_def]; simp only [hc']; exact hw
      · rw [pySplitAux.eq_def]; simp only [hc']; exact hw'

theorem addNode_stateEquiv (s s' : ParseState) (hse : stateEquiv s s') (ws : List String) :
    resultEquiv (addNode s ws) (addNode s' ws) := by
  obtain ⟨hn, hc, hm⟩ := hse
  by_cases hlen : ws.length < MIN_NODE_LINE_CARDS
  · rw [addNode.eq_def, addNode.eq_def, if_pos hlen, if_pos hlen]
    exact ⟨hn, hc, hm⟩
  · match ws with
    | [] => exact absurd (by simp [MIN_NODE_LINE_CARDS]) hlen
    | [a] => exact absurd (by simp [MIN_NODE_LINE_CARDS]) hlen
    | [a, b] => exact absurd (by simp [MIN_NODE_LINE_CARDS]) hlen
    | [a, b, c] => exact absurd (by simp [MIN_NODE_LINE_CARDS]) hlen
    | [a, b, c, d] => exact absurd (by simp [MIN_NODE_LINE_CARDS]) hlen
    | a :: b :: c :: d :: e :: rest =>
      rw [addNode, addNode, if_neg hlen, if_neg hlen]
      cases pyInt? b with
      | none => exact rfl
      | some nid => exact ⟨by rw [hn], hc, hm⟩

theorem addCell_stateEquiv (s s' : ParseState) (hse : stateEquiv s s') (ws : List String) :
    resultEquiv (addCell s ws) (addCell s' ws) := by
  obtain ⟨hn, hc, hm⟩ := hse
  match ws with
  | [] => exact rfl
  | card :: rest =>
    rw [addCell, addCell]
    by_cases hlen : (card :: rest).length < (if asciiLower card = "e4q" then 4 else 3) + 2
    · simp only [if_pos hlen]
      exact ⟨hn, hc, hm⟩
    · simp only [if_neg hlen]
      cases intTokens? (((card :: rest).drop 2).take (if asciiLower card = "e4q" then 4 else 3)) with
      | none => exact rfl
      | some pts => exact ⟨hn, by rw [hc], hm⟩

theorem parseLine_stateEquiv (s s' : ParseState) (hse : stateEquiv s s') (l : String) :
    resultEquiv (parseLine s l) (parseLine s' l) := by
  rw [parseLine, parseLine]
  by_cases h1 : pyStrip l = ""
  · rw [if_pos h1, if_pos h1]
    exact hse
  · rw [if_neg h1, if_neg h1]
    by_cases h2 : pyStartsWith (asciiLower (pyStrip l)) "meshname" = true
    · rw [if_pos h2, if_pos h2]
      exact ⟨hse.1, hse.2.1, rfl⟩
    · rw [if_neg h2, if_neg h2]
      by_cases h3 : asciiLower ((pySplit (pyStrip l)).headD "") = "e3t" ∨
          asciiLower ((pySplit (pyStrip l)).headD "") = "e4q"
      · rw [if_pos h3, if_pos h3]
        exact addCell_stateEquiv s s' hse _
      · rw [if_neg h3, if_neg h3]
        by_cases h4 : asciiLower ((pySplit (pyStrip l)).headD "") = "nd"
        · rw [if_pos h4, if_pos h4]
          exact addNode_stateEquiv s s' hse _
        · rw [if_neg h4, if_neg h4]
          exact hse

theorem parseLines_resultEquiv : ∀ (ls : List String) (s s' : ParseState),
    stateEquiv s s' → resultEquiv (parseLines s ls) (parseLines s' ls) := by
  intro ls
  induction ls with
  | nil => intro s s' hse; exact hse
  | cons l tl ih =>
    intro s s' hse
    rw [parseLines, parseLines]
    have hline := parseLine_stateEquiv s s' hse l
    cases hl : parseLine s l with
    | error e =>
      cases hl' : parseLine s' l with
      | error e' =>
        rw [hl, hl'] at hline
        exact hline
      | ok s1' =>
        rw [hl, hl'] at hline
        exact absurd hline (by simp [resultEquiv])
    | ok s1 =>
      cases hl' : parseLine s' l with
      | error e' =>
        rw [hl, hl'] at hline
        exact absurd hline (by simp [resultEquiv])
      | ok s1' =>
        rw [hl, hl'] at hline
        exact ih s1 s1' hline

theorem toList_mk (l : List Char) : (String.mk l).toList = l := rfl

theorem asciiLower_mk (l : List Char) :
    asciiLower (String.mk l) = String.mk (l.map Char.toLower) := rfl

theorem pyStartsWith_mk (l : List Char) (s : String) :
    pyStartsWith (String.mk l) s = listBeginsWith l s.toList := rfl

theorem listBeginsWith_cons (c d : Char) (l ds : List Char) :
    listBeginsWith (c :: l) (d :: ds) = (c = d && listBeginsWith l ds) := rfl

theorem addNode_headCase (st : ParseState) (w w' : String) (ws : List String) :
    resultEquiv (addNode st (w :: ws)) (addNode st (w' :: ws)) := by
  have hlen : (w :: ws).length = (w' :: ws).length := by simp
  by_cases hl : (w :: ws).length < MIN_NODE_LINE_CARDS
  · have hl' : (w' :: ws).length < MIN_NODE_LINE_CARDS := hlen ▸ hl
    rw [addNode.eq_def, addNode.eq_def, if_pos hl, if_pos hl']
    exact ⟨rfl, rfl, rfl⟩
  · have hl' : ¬((w' :: ws).length < MIN_NODE_LINE_CARDS) := hlen ▸ hl
    match ws with
    | [] => exact absurd (by simp [MIN_NODE_LINE_CARDS]) hl
    | [a] => exact absurd (by simp [MIN_NODE_LINE_CARDS]) hl
    | [a, b] => exact absurd (by simp [MIN_NODE_LINE_CARDS]) hl
    | [a, b, c] => exact absurd (by simp [MIN_NODE_LINE_CARDS]) hl
    | b :: c :: d :: e :: rest =>
      rw [addNode, addNode, if_neg hl, if_neg hl']
      cases pyInt? b with
      | none => exact rfl
      | some nid => exact ⟨rfl, rfl, rfl⟩

theorem addCell_headCase (st : ParseState) (w w' : String) (ws : List String)
    (hlw : asciiLower w = asciiLower w') :
    resultEquiv (addCell st (w :: ws)) (addCell st (w' :: ws)) := by
  rw [addCell, addCell, ← hlw]
  simp only [List.length_cons, List.drop_succ_cons]
  by_cases h : ws.length + 1 < (if asciiLower w = "e4q" then 4 else 3) + 2
  · rw [if_pos h, if_pos h]
    exact ⟨rfl, rfl, rfl⟩
  · rw [if_neg h, if_neg h]
    cases intTokens? ((ws.drop 1).take (if asciiLower w = "e4q" then 4 else 3)) with
    | none => exact rfl
    | some pts => exact ⟨rfl, rfl, rfl⟩

theorem parseLine_headword_case (st : ParseState) (w w' rest : String)
    (hne : w.toList ≠ []) (hne' : w'.toList ≠ [])
    (hns : ∀ c ∈ w.toList, isPySpace c = false)
    (hns' : ∀ c ∈ w'.toList, isPySpace c = false)
    (hlw : asciiLower w = asciiLower w')
    (hlen8 : listBeginsWith (w.toList.map Char.toLower ++
        ((rest.toList.reverse.dropWhile isPySpace).reverse.map Char.toLower))
        "meshname".toList = true → w.toList.length = 8) :
    resultEquiv (parseLine st (w ++ rest)) (parseLine st (w' ++ rest)) := by
  have hmap : w.toList.map Char.toLower = w'.toList.map Char.toLower := by
    have h := congrArg String.data hlw
    simpa [asciiLower] using h
  set t := (rest.toList.reverse.dropWhile isPySpace).reverse with ht
  have hstrip : pyStrip (w ++ rest) = String.mk (w.toList ++ t) := by
    rw [pyStrip, show (w ++ rest).toList = w.toList ++ rest.toList from String.data_append w rest,
      stripCharsList_keyword_append _ _ hne hns]
  have hstrip' : pyStrip (w' ++ rest) = String.mk (w'.toList ++ t) := by
    rw [pyStrip, show (w' ++ rest).toList = w'.toList ++ rest.toList from String.data_append w' rest,
      stripCharsList_keyword_append _ _ hne' hns']
  rw [parseLine, parseLine, hstrip, hstrip']
  have hbl : ¬(String.mk (w.toList ++ t) = "") := by
    rw [String.ext_iff]
    intro hcontra
    exact hne (List.append_eq_nil.mp hcontra).1
  have hbl' : ¬(String.mk (w'.toList ++ t) = "") := by
    rw [String.ext_iff]
    intro hcontra
    exact hne' (List.append_eq_nil.mp hcontra).1
  rw [if_neg hbl, if_neg hbl']
  have hcondEq : pyStartsWith (asciiLower (String.mk (w.toList ++ t))) "meshname" =
      pyStartsWith (asciiLower (String.mk (w'.toList ++ t))) "meshname" := by
    rw [asciiLower_mk, asciiLower_mk, pyStartsWith_mk, pyStartsWith_mk,
      List.map_append, List.map_append, hmap]
  by_cases hmn : pyStartsWith (asciiLower (String.mk (w.toList ++ t))) "meshname" = true
  · have hmn' : pyStartsWith (asciiLower (String.mk (w'.toList ++ t))) "meshname" = true := by
      rw [← hcondEq]; exact hmn
    rw [if_pos hmn, if_pos hmn']
    have hmn2 : listBeginsWith (w.toList.map Char.toLower ++ t.map Char.toLower)
        "meshname".toList = true := by
      rw [asciiLower_mk, pyStartsWith_mk, List.map_append] at hmn
      exact hmn
    have h8 : w.toList.length = 8 := hlen8 hmn2
    have h8' : w'.toList.length = 8 := by
      have : (w'.toList.map Char.toLower).length = (w.toList.map Char.toLower).length := by
        rw [hmap]
      simpa using this.trans (by simpa using h8)
    have hdrop : (String.mk (w.toList ++ t)).toList.drop 8 = t := by
      rw [toList_mk, ← h8, List.drop_left]
    have hdrop' : (String.mk (w'.toList ++ t)).toList.drop 8 = t := by
      rw [toList_mk, ← h8', List.drop_left]
    exact ⟨rfl, rfl, by rw [hdrop, hdrop']⟩
  · have hmn' : ¬(pyStartsWith (asciiLower (String.mk (w'.toList ++ t))) "meshname" = true) := by
      rw [← hcondEq]; exact hmn
    rw [if_neg hmn, if_neg hmn']
    have hsplit : pySplit (String.mk (w.toList ++ t)) = pySplitAux t w.toList.reverse := by
      rw [pySplit, toList_mk, pySplitAux_absorb t w.toList [] hns, List.append_nil]
    have hsplit' : pySplit (String.mk (w'.toList ++ t)) = pySplitAux t w'.toList.reverse := by
      rw [pySplit, toList_mk, pySplitAux_absorb t w'.toList [] hns', List.append_nil]
    obtain ⟨wd, wd', ws, hw, hw', hlww⟩ := pySplitAux_caseEquiv t w.toList.reverse w'.toList.reverse
      (fun h => hne (List.reverse_eq_nil_iff.mp h))
      (fun h => hne' (List.reverse_eq_nil_iff.mp h))
      (by rw [List.map_reverse, List.map_reverse, hmap])
    rw [hsplit, hsplit', hw, hw']
    simp only [List.headD_cons]
    by_cases h3 : asciiLower wd = "e3t" ∨ asciiLower wd = "e4q"
    · have h3' : asciiLower wd' = "e3t" ∨ asciiLower wd' = "e4q" := by rw [← hlww]; exact h3
      rw [if_pos h3, if_pos h3']
      exact addCell_headCase st wd wd' ws hlww
    · have h3' : ¬(asciiLower wd' = "e3t" ∨ asciiLower wd' = "e4q") := by rw [← hlww]; exact h3
      rw [if_neg h3, if_neg h3']
      by_cases h4 : asciiLower wd = "nd"
      · have h4' : asciiLower wd' = "nd" := by rw [← hlww]; exact h4
        rw [if_pos h4, if_pos h4']
        exact addNode_headCase st wd wd' ws
      · have h4' : ¬(asciiLower wd' = "nd") := by rw [← hlww]; exact h4
        rw [if_neg h4, if_neg h4']
        exact stateEquiv_refl st

theorem keyword_facts (w : String) (kwc : List Char)
    (hwl : w.toList.map Char.toLower = kwc)
    (hkne : kwc ≠ [])
    (hksp : ∀ c ∈ kwc, isPySpace c = false) :
    w.toList ≠ [] ∧ ∀ c ∈ w.toList, isPySpace c = false := by
  constructor
  · intro h
    rw [h] at hwl
    exact hkne hwl.symm
  · exact not_space_of_lower_keyword _ _ hwl hksp

theorem parseLine_keyword_case (st : ParseState) (w w' rest : String)
    (hkw : asciiLower w = "nd" ∨ asciiLower w = "e3t" ∨ asciiLower w = "e4q" ∨
      asciiLower w = "meshname")
    (hlw : asciiLower w = asciiLower w') :
    resultEquiv (parseLine st (w ++ rest)) (parseLine st (w' ++ rest)) := by
  have hmap : w.toList.map Char.toLower = w'.toList.map Char.toLower := by
    simpa [asciiLower] using congrArg String.data hlw
  rcases hkw with hk | hk | hk | hk
  · have hwl : w.toList.map Char.toLower = "nd".data := by
      simpa [asciiLower] using congrArg String.data hk
    have hwl' : w'.toList.map Char.toLower = "nd".data := by rw [← hmap]; exact hwl
    obtain ⟨hne, hns⟩ := keyword_facts w _ hwl (by decide) (by decide)
    obtain ⟨hne', hns'⟩ := keyword_facts w' _ hwl' (by decide) (by decide)
    apply parseLine_headword_case st w w' rest hne hne' hns hns' hlw
    intro hb
    rw [hwl, show ("nd".data : List Char) = ['n', 'd'] from rfl,
      show ("meshname".toList : List Char) = ['m', 'e', 's', 'h', 'n', 'a', 'm', 'e'] from rfl,
      List.cons_append, List.cons_append, List.nil_append, listBeginsWith_cons] at hb
    simp only [Bool.and_eq_true, decide_eq_true_eq] at hb
    exact absurd hb.1 (by decide)
  · have hwl : w.toList.map Char.toLower = "e3t".data := by
      simpa [asciiLower] using congrArg String.data hk
    have hwl' : w'.toList.map Char.toLower = "e3t".data := by rw [← hmap]; exact hwl
    obtain ⟨hne, hns⟩ := keyword_facts w _ hwl (by decide) (by decide)
    obtain ⟨hne', hns'⟩ := keyword_facts w' _ hwl' (by decide) (by decide)
    apply parseLine_headword_case st w w' rest hne hne' hns hns' hlw
    intro hb
    rw [hwl, show ("e3t".data : List Char) = ['e', '3', 't'] from rfl,
      show ("meshname".toList : List Char) = ['m', 'e', 's', 'h', 'n', 'a', 'm', 'e'] from rfl,
      List.cons_append, List.cons_append, List.cons_append, List.nil_append,
      listBeginsWith_cons] at hb
    simp only [Bool.and_eq_true, decide_eq_true_eq] at hb
    exact absurd hb.1 (by decide)
  · have hwl : w.toList.map Char.toLower = "e4q".data := by
      simpa [asciiLower] using congrArg String.data hk
    have hwl' : w'.toList.map Char.toLower = "e4q".data := by rw [← hmap]; exact hwl
    obtain ⟨hne, hns⟩ := keyword_facts w _ hwl (by decide) (by decide)
    obtain ⟨hne', hns'⟩ := keyword_facts w' _ hwl' (by decide) (by decide)
    apply parseLine_headword_case st w w' rest hne hne' hns hns' hlw
    intro hb
    rw [hwl, show ("e4q".data : List Char) = ['e', '4', 'q'] from rfl,
      show ("meshname".toList : List Char) = ['m', 'e', 's', 'h', 'n', 'a', 'm', 'e'] from rfl,
      List.cons_append, List.cons_append, List.cons_append, List.nil_append,
      listBeginsWith_cons] at hb
    simp only [Bool.and_eq_true, decide_eq_true_eq] at hb
    exact absurd hb.1 (by decide)
  · have hwl : w.toList.map Char.toLower = "meshname".data := by
      simpa [asciiLower] using congrArg String.data hk
    have hwl' : w'.toList.map Char.toLower = "meshname".data := by rw [← hmap]; exact hwl
    obtain ⟨hne, hns⟩ := keyword_facts w _ hwl (by decide) (by decide)
    obtain ⟨hne', hns'⟩ := keyword_facts w' _ hwl' (by decide) (by decide)
    apply parseLine_headword_case st w w' rest hne hne' hns hns' hlw
    intro _
    have hlen := congrArg List.length hwl
    rw [List.length_map] at hlen
    exact hlen.trans rfl

/-- C9: parsing is invariant under blank (whitespace-only) lines — inserting
one anywhere leaves the entire parse result unchanged — and under the case
of a directive keyword: replacing the keyword at the start of a line by any
other spelling with the same lower-casing yields the same node table, cell
list and mesh name (`resultEquiv`; the recorded failure messages quote the
line as written, so they keep the original spelling). -/
theorem c9_blank_and_keyword_case_invariance :
    (∀ (st : ParseState) (b : String) (ls₁ ls₂ : List String), pyStrip b = "" →
      parseLines st (ls₁ ++ b :: ls₂) = parseLines st (ls₁ ++ ls₂)) ∧
    (∀ (st : ParseState) (w w' rest : String) (ls₁ ls₂ : List String),
      (asciiLower w = "nd" ∨ asciiLower w = "e3t" ∨ asciiLower w = "e4q" ∨
        asciiLower w = "meshname") →
      asciiLower w = asciiLower w' →
      resultEquiv (parseLines st (ls₁ ++ (w ++ rest) :: ls₂))
        (parseLines st (ls₁ ++ (w' ++ rest) :: ls₂))) := by
  constructor
  · intro st b ls₁ ls₂ hb
    rw [parseLines_append, parseLines_append]
    cases parseLines st ls₁ with
    | error e => rfl
    | ok s => simp only [parseLines, parseLine_blank s b hb]
  · intro st w w' rest ls₁ ls₂ hkw hlw
    rw [parseLines_append, parseLines_append]
    cases parseLines st ls₁ with
    | error e => exact rfl
    | ok s =>
      simp only [parseLines]
      have hline := parseLine_keyword_case s w w' rest hkw hlw
      cases hl : parseLine s (w ++ rest) with
      | error e =>
        cases hl' : parseLine s (w' ++ rest) with
        | error e' =>
          rw [hl, hl'] at hline
          exact hline
        | ok s1' =>
          rw [hl, hl'] at hline
          exact absurd hline (by simp [resultEquiv])
      | ok s1 =>
        cases hl' : parseLine s (w' ++ rest) with
        | error e' =>
          rw [hl, hl'] at hline
          exact absurd hline (by simp [resultEquiv])
        | ok s1' =>
          rw [hl, hl'] at hline
          exact parseLines_resultEquiv ls₂ s1 s1' hline

/-- C9 witness: a blank line inserted between two cards changes nothing,
and `ND` versus `nd` on the same node line give equivalent results. -/
theorem c9_witness :
    parseLines initState (["ND 1 0 0 0"] ++ "  " :: ["E3T 1 1 1 1"]) =
      parseLines initState (["ND 1 0 0 0"] ++ ["E3T 1 1 1 1"]) ∧
    resultEquiv (parseLines initState ([] ++ ("ND" ++ " 1 0 0 0") :: ["e3t 2 1 1 1"]))
      (parseLines initState ([] ++ ("nd" ++ " 1 0 0 0") :: ["e3t 2 1 1 1"])) :=
  ⟨c9_blank_and_keyword_case_invariance.1 initState "  " ["ND 1 0 0 0"] ["E3T 1 1 1 1"]
      (by decide),
   c9_blank_and_keyword_case_invariance.2 initState "ND" "nd" " 1 0 0 0" [] ["e3t 2 1 1 1"]
      (by decide) (by decide)⟩
